import Mathlib

/-!
Verification of the duplex-streaming client `callHelloBiDirectionalStream`
(`src/grpc-go-project/client/unary.go`, lines 66-101).

The function drives one bidirectional gRPC stream with two units of control:

* the sender loop (lines 89-98): for each name in `names.Names` it builds a
  `HelloRequest` and calls `stream.Send`; a failed send hits
  `log.Fatalf("Error while sending %v", err)` which aborts the whole process;
  after the loop it calls `stream.CloseSend()` discarding the returned error;
* the receiver goroutine (lines 75-87): it loops on `stream.Recv()`; on
  `io.EOF` it breaks out and executes `close(waitc)`; on any other error it
  hits `log.Fatalf("Error while streaming %v", err)` (process abort, so
  `close(waitc)` is never reached); on a message it calls
  `log.Println(message)` (the sink) and keeps looping;
* the orchestrator then blocks on `<-waitc` (line 99) and logs
  "Bidirectional streaming finished" (line 100).

We embed each loop as a function from the transport's answers to the trace of
observable events it performs, and the whole call as a function to its final
outcome.  The transport is modelled by the result of each `Send` call
(indexed by position), the result the discarded `CloseSend` would return, and
the finite list of `Recv` results the peer yields.
-/

namespace BiDi

/-- Result of one `stream.Recv()` call, as produced by the transport:
a message, `io.EOF`, or a transport error carrying its text. -/
inductive RecvResult where
  | msg (m : String)
  | eof
  | fail (e : String)
deriving DecidableEq, Repr

/-- Observable events of the receiver goroutine (lines 75-87):
`deliver m` is the `log.Println(message)` sink call, `closeSignal` is
`close(waitc)`, and `fatal e` is the `log.Fatalf` process abort. -/
inductive REvent where
  | deliver (m : String)
  | closeSignal
  | fatal (e : String)
deriving DecidableEq, Repr

/-- Observable events of the sender loop (lines 89-98): `send n` is
`stream.Send` of the request wrapping name `n`, `close` is
`stream.CloseSend()`, and `fatal e` is the `log.Fatalf` process abort. -/
inductive SEvent where
  | send (name : String)
  | close
  | fatal (e : String)
deriving DecidableEq, Repr

/-- The receiver goroutine (lines 75-87), driven by the finite list of `Recv`
results the transport yields.  An exhausted list with no terminal result
models a peer that never half-closes: `Recv` blocks forever and no further
event occurs. -/
def receiverLoop : List RecvResult → List REvent
  | [] => []
  | RecvResult.msg m :: rest => REvent.deliver m :: receiverLoop rest
  | RecvResult.eof :: _ => [REvent.closeSignal]
  | RecvResult.fail e :: _ => [REvent.fatal e]

/-- Messages delivered to the sink (`log.Println` calls), in order. -/
def sinkOf (tr : List REvent) : List String :=
  tr.filterMap fun ev =>
    match ev with
    | REvent.deliver m => some m
    | _ => none

/-- How many times `close(waitc)` was executed in a receiver trace. -/
def fireCount (tr : List REvent) : Nat :=
  tr.countP fun ev =>
    match ev with
    | REvent.closeSignal => true
    | _ => false

/-- The first `log.Fatalf` of the receiver goroutine, if any. -/
def firstFatal : List REvent → Option String
  | [] => none
  | REvent.fatal e :: _ => some e
  | _ :: rest => firstFatal rest

/-- `<-waitc` (line 99) returns exactly when `close(waitc)` has been
executed; receiving from a channel that is already closed returns
immediately. -/
def waitReturns (tr : List REvent) : Bool :=
  decide (0 < fireCount tr)

/-- The sender loop, lines 89-98, from its starting index: `sendRes i` is the
error `stream.Send` returns for the i-th name (`none` = ok).  A failed send
reaches `log.Fatalf` and nothing further runs; after the last name the loop
falls through to `stream.CloseSend()`.  The `time.Sleep` pacing has no
observable effect and is elided. -/
def senderLoopAux (sendRes : Nat → Option String) : List String → Nat → List SEvent
  | [], _ => [SEvent.close]
  | n :: rest, i =>
      SEvent.send n ::
        match sendRes i with
        | some e => [SEvent.fatal e]
        | none => senderLoopAux sendRes rest (i + 1)

/-- The sender loop on the whole name list.  `closeRes` is the error value
`stream.CloseSend()` returns; the statement `stream.CloseSend()` (line 98)
discards it, so it binds nothing in the body. -/
def senderLoop (sendRes : Nat → Option String) (closeRes : Option String)
    (names : List String) : List SEvent :=
  senderLoopAux sendRes names 0

/-- Number of `stream.Send` calls in a sender trace. -/
def sendCount : List SEvent → Nat
  | [] => 0
  | SEvent.send _ :: rest => sendCount rest + 1
  | _ :: rest => sendCount rest

/-- Number of `stream.CloseSend()` calls in a sender trace. -/
def closeCount : List SEvent → Nat
  | [] => 0
  | SEvent.close :: rest => closeCount rest + 1
  | _ :: rest => closeCount rest

/-- The first `log.Fatalf` of the sender loop, if any. -/
def sFirstFatal : List SEvent → Option String
  | [] => none
  | SEvent.fatal e :: _ => some e
  | _ :: rest => sFirstFatal rest

/-- Outcome of one whole call of `callHelloBiDirectionalStream`:
it reaches line 100 with the sink having received `sink`; or the process
aborted in the sender's `log.Fatalf` (line 94); or the process aborted in
the receiver's `log.Fatalf` (line 82); or `<-waitc` blocks forever after the
sink received `sink`. -/
inductive RunOutcome where
  | finished (sink : List String)
  | senderAborted (e : String)
  | receiverAborted (e : String)
  | blocked (sink : List String)
deriving DecidableEq, Repr

/-- The whole call, lines 66-101, after the stream opened: run the sender
loop (a sender `log.Fatalf` kills the process, receiver included); otherwise
the outcome is settled by the receiver goroutine: its `log.Fatalf` kills the
process, `close(waitc)` lets `<-waitc` return and line 100 run, and a peer
that never terminates its direction leaves `<-waitc` blocked forever. -/
def callHelloBiDirectionalStream (sendRes : Nat → Option String)
    (closeRes : Option String) (names : List String)
    (recvStream : List RecvResult) : RunOutcome :=
  match sFirstFatal (senderLoop sendRes closeRes names) with
  | some e => RunOutcome.senderAborted e
  | none =>
      let rtrace := receiverLoop recvStream
      match firstFatal rtrace with
      | some e => RunOutcome.receiverAborted e
      | none =>
          if waitReturns rtrace then RunOutcome.finished (sinkOf rtrace)
          else RunOutcome.blocked (sinkOf rtrace)

/-- The call result visible to a caller, as the spec's §6 describes it:
`(senderError, receiverError)` when the call returns at all.  The only path
on which `callHelloBiDirectionalStream` returns to its caller is `finished`,
and on it neither direction failed; every failing path aborts the process or
blocks, returning nothing. -/
def callResult : RunOutcome → Option (Option String × Option String)
  | RunOutcome.finished _ => some (none, none)
  | _ => none

/-! ## Helper lemmas -/

theorem senderLoopAux_ok (sendRes : Nat → Option String) :
    ∀ (names : List String) (i : Nat),
      (∀ j, j < names.length → sendRes (i + j) = none) →
      senderLoopAux sendRes names i = names.map SEvent.send ++ [SEvent.close]
  | [], _, _ => rfl
  | n :: rest, i, h => by
      have h0 : sendRes i = none := by
        have := h 0 (Nat.succ_pos _)
        simpa using this
      have hrec := senderLoopAux_ok sendRes rest (i + 1) (fun j hj => by
        have := h (j + 1) (by simpa using Nat.succ_lt_succ hj)
        simpa [Nat.add_assoc, Nat.add_comm, Nat.add_left_comm] using this)
      simp [senderLoopAux, h0, hrec]

theorem senderLoopAux_fail (sendRes : Nat → Option String) :
    ∀ (names : List String) (i k : Nat) (e : String),
      k < names.length →
      (∀ j, j < k → sendRes (i + j) = none) →
      sendRes (i + k) = some e →
      senderLoopAux sendRes names i =
        (names.take (k + 1)).map SEvent.send ++ [SEvent.fatal e]
  | [], _, k, _, hk, _, _ => absurd hk (by simp)
  | n :: rest, i, 0, e, _, _, hfail => by
      simp at hfail
      simp [senderLoopAux, hfail]
  | n :: rest, i, k + 1, e, hk, hok, hfail => by
      have h0 : sendRes i = none := by
        have := hok 0 (Nat.succ_pos _)
        simpa using this
      have hrec := senderLoopAux_fail sendRes rest (i + 1) k e
        (by simpa using Nat.lt_of_succ_lt_succ hk)
        (fun j hj => by
          have := hok (j + 1) (Nat.succ_lt_succ hj)
          simpa [Nat.add_assoc, Nat.add_comm, Nat.add_left_comm] using this)
        (by simpa [Nat.add_assoc, Nat.add_comm, Nat.add_left_comm] using hfail)
      simp [senderLoopAux, h0, hrec]

theorem sFirstFatal_sends (tr : List SEvent) :
    ∀ l : List String, sFirstFatal (l.map SEvent.send ++ tr) = sFirstFatal tr
  | [] => rfl
  | _ :: rest => by
      simpa [sFirstFatal] using sFirstFatal_sends tr rest

theorem closeCount_aux_le_one (sendRes : Nat → Option String) :
    ∀ (names : List String) (i : Nat),
      closeCount (senderLoopAux sendRes names i) ≤ 1
  | [], _ => by simp [senderLoopAux, closeCount]
  | n :: rest, i => by
      cases h : sendRes i with
      | none =>
          have := closeCount_aux_le_one sendRes rest (i + 1)
          simpa [senderLoopAux, closeCount, h] using this
      | some e => simp [senderLoopAux, closeCount, h]

theorem receiverLoop_msgs (rest : List RecvResult) :
    ∀ msgs : List String,
      receiverLoop (msgs.map RecvResult.msg ++ rest) =
        msgs.map REvent.deliver ++ receiverLoop rest
  | [] => rfl
  | m :: ms => by
      simpa [receiverLoop] using receiverLoop_msgs rest ms

theorem sinkOf_delivers (tr : List REvent) (msgs : List String) :
    sinkOf (msgs.map REvent.deliver ++ tr) = msgs ++ sinkOf tr := by
  induction msgs with
  | nil => rfl
  | cons m ms ih => simpa [sinkOf] using ih

theorem fireCount_delivers (tr : List REvent) (msgs : List String) :
    fireCount (msgs.map REvent.deliver ++ tr) = fireCount tr := by
  induction msgs with
  | nil => rfl
  | cons m ms ih => simpa [fireCount] using ih

theorem firstFatal_delivers (tr : List REvent) :
    ∀ msgs : List String,
      firstFatal (msgs.map REvent.deliver ++ tr) = firstFatal tr
  | [] => rfl
  | m :: ms => by
      simpa [firstFatal] using firstFatal_delivers tr ms

theorem fireCount_receiverLoop_le_one :
    ∀ rs : List RecvResult, fireCount (receiverLoop rs) ≤ 1
  | [] => by simp [receiverLoop, fireCount]
  | RecvResult.msg m :: rest => by
      simpa [receiverLoop, fireCount] using fireCount_receiverLoop_le_one rest
  | RecvResult.eof :: _ => by simp [receiverLoop, fireCount]
  | RecvResult.fail e :: _ => by simp [receiverLoop, fireCount]

theorem sendCount_sends (tr : List SEvent) :
    ∀ l : List String, sendCount (l.map SEvent.send ++ tr) = l.length + sendCount tr
  | [] => by simp [sendCount]
  | n :: rest => by
      have ih := sendCount_sends tr rest
      simp [sendCount, ih]
      omega

theorem closeCount_sends (tr : List SEvent) :
    ∀ l : List String, closeCount (l.map SEvent.send ++ tr) = closeCount tr
  | [] => by simp [closeCount]
  | n :: rest => by
      simpa [closeCount] using closeCount_sends tr rest

/-! ## Claim theorems -/

/-- C1: for every finite name list with no failing send, the sender loop
(lines 89-98) performs exactly one `Send` per source element, in source
order, followed by exactly one `CloseSend`. -/
theorem senderLoop_sends_each_then_closeSend (sendRes : Nat → Option String)
    (closeRes : Option String) (names : List String)
    (hok : ∀ j, j < names.length → sendRes j = none) :
    senderLoop sendRes closeRes names = names.map SEvent.send ++ [SEvent.close] ∧
    sendCount (senderLoop sendRes closeRes names) = names.length ∧
    closeCount (senderLoop sendRes closeRes names) = 1 := by
  have h : senderLoop sendRes closeRes names = names.map SEvent.send ++ [SEvent.close] :=
    senderLoopAux_ok sendRes names 0 (fun j hj => by simpa using hok j hj)
  refine ⟨h, ?_, ?_⟩
  · rw [h, sendCount_sends]
    simp [sendCount]
  · rw [h, closeCount_sends]
    simp [closeCount]

/-- C1 witness at the reference input of `main` (lines 125-127). -/
theorem senderLoop_sends_each_then_closeSend_witness :
    senderLoop (fun _ => none) none ["Aman", "Aryan", "Satvik"] =
        [SEvent.send "Aman", SEvent.send "Aryan", SEvent.send "Satvik", SEvent.close] ∧
    sendCount (senderLoop (fun _ => none) none ["Aman", "Aryan", "Satvik"]) = 3 ∧
    closeCount (senderLoop (fun _ => none) none ["Aman", "Aryan", "Satvik"]) = 1 := by
  have h := senderLoop_sends_each_then_closeSend (fun _ => none) none
    ["Aman", "Aryan", "Satvik"] (fun j _ => rfl)
  simpa using h

/-- C2: when the send at index k fails (the (k+1)-st send call), the sender
loop has performed exactly k+1 `Send` calls, the failed one included, and
`CloseSend` is never reached: line 94's `log.Fatalf` aborts first. -/
theorem senderLoop_fail_stops (sendRes : Nat → Option String) (closeRes : Option String)
    (names : List String) (k : Nat) (e : String)
    (hk : k < names.length)
    (hok : ∀ j, j < k → sendRes j = none)
    (hfail : sendRes k = some e) :
    senderLoop sendRes closeRes names =
        (names.take (k + 1)).map SEvent.send ++ [SEvent.fatal e] ∧
    sendCount (senderLoop sendRes closeRes names) = k + 1 ∧
    SEvent.close ∉ senderLoop sendRes closeRes names := by
  have h : senderLoop sendRes closeRes names =
      (names.take (k + 1)).map SEvent.send ++ [SEvent.fatal e] :=
    senderLoopAux_fail sendRes names 0 k e hk
      (fun j hj => by simpa using hok j hj) (by simpa using hfail)
  refine ⟨h, ?_, ?_⟩
  · rw [h, sendCount_sends]
    have hkl : k + 1 ≤ names.length := hk
    simp [sendCount, List.length_take]
    omega
  · rw [h]
    intro hmem
    rcases List.mem_append.mp hmem with h1 | h1
    · rcases List.mem_map.mp h1 with ⟨a, _, ha⟩
      exact SEvent.noConfusion ha
    · simp at h1

/-- C2 witness: the transport rejects the second send. -/
theorem senderLoop_fail_stops_witness :
    senderLoop (fun i => match i with | 1 => some "connection reset" | _ => none)
        none ["Aman", "Aryan", "Satvik"] =
        [SEvent.send "Aman", SEvent.send "Aryan", SEvent.fatal "connection reset"] ∧
    sendCount (senderLoop
        (fun i => match i with | 1 => some "connection reset" | _ => none)
        none ["Aman", "Aryan", "Satvik"]) = 2 ∧
    SEvent.close ∉ senderLoop
        (fun i => match i with | 1 => some "connection reset" | _ => none)
        none ["Aman", "Aryan", "Satvik"] := by
  have h := senderLoop_fail_stops
    (fun i => match i with | 1 => some "connection reset" | _ => none)
    none ["Aman", "Aryan", "Satvik"] 1 "connection reset"
    (by simp) (fun j hj => by interval_cases j <;> rfl) rfl
  simpa using h

/-- C3 counterexample: when `Recv` yields a transport error, the receiver
goroutine exits through `log.Fatalf` (line 82) and `close(waitc)` never
executes, so on this exit path the CompletionSignal does not fire once. -/
theorem fireCount_error_exit_ne_one :
    fireCount (receiverLoop [RecvResult.fail "connection reset"]) ≠ 1 := by
  decide

/-- C3 (amended): the CompletionSignal fires exactly once when the receiver
loop exits via end-of-stream; when it exits via a transport error the
process aborts in `log.Fatalf` and the signal fires zero times. -/
theorem completionSignal_fires_on_eof_only (msgs : List String)
    (rest : List RecvResult) (e : String) :
    fireCount (receiverLoop (msgs.map RecvResult.msg ++ RecvResult.eof :: rest)) = 1 ∧
    fireCount (receiverLoop (msgs.map RecvResult.msg ++ RecvResult.fail e :: rest)) = 0 := by
  constructor <;> rw [receiverLoop_msgs, fireCount_delivers] <;>
    simp [receiverLoop, fireCount]

/-- C4 counterexample: the first send fails, yet the peer's direction ends
cleanly; the call aborts the whole process in the sender's `log.Fatalf`
(line 94), never awaits the receiver, and produces no call result at all —
in particular no result carrying both direction's errors. -/
theorem sendFailure_aborts_process :
    callHelloBiDirectionalStream (fun _ => some "connection reset") none ["Aman"]
        [RecvResult.eof] = RunOutcome.senderAborted "connection reset" ∧
    callResult (callHelloBiDirectionalStream (fun _ => some "connection reset") none
        ["Aman"] [RecvResult.eof]) = none := by
  constructor <;> rfl

/-- C4 (amended): when a send fails mid-stream, `log.Fatalf` terminates the
whole process; the orchestrator never proceeds to wait on the receiver and
the call returns no result to its caller, whatever the receive direction
held. -/
theorem sendFailure_never_reaches_wait (sendRes : Nat → Option String)
    (closeRes : Option String) (names : List String) (recvStream : List RecvResult)
    (k : Nat) (e : String) (hk : k < names.length)
    (hok : ∀ j, j < k → sendRes j = none) (hfail : sendRes k = some e) :
    callHelloBiDirectionalStream sendRes closeRes names recvStream =
      RunOutcome.senderAborted e ∧
    callResult (callHelloBiDirectionalStream sendRes closeRes names recvStream) =
      none := by
  have h : senderLoop sendRes closeRes names =
      (names.take (k + 1)).map SEvent.send ++ [SEvent.fatal e] :=
    senderLoopAux_fail sendRes names 0 k e hk
      (fun j hj => by simpa using hok j hj) (by simpa using hfail)
  have hf : sFirstFatal (senderLoop sendRes closeRes names) = some e := by
    rw [h, sFirstFatal_sends]
    rfl
  constructor
  · simp [callHelloBiDirectionalStream, hf]
  · simp [callHelloBiDirectionalStream, hf, callResult]

/-- C4 (amended) witness at a concrete failing first send. -/
theorem sendFailure_never_reaches_wait_witness :
    callHelloBiDirectionalStream (fun _ => some "connection reset") none ["Aman"]
        [RecvResult.msg "Echo:Aman", RecvResult.eof] =
      RunOutcome.senderAborted "connection reset" ∧
    callResult (callHelloBiDirectionalStream (fun _ => some "connection reset") none
        ["Aman"] [RecvResult.msg "Echo:Aman", RecvResult.eof]) = none :=
  sendFailure_never_reaches_wait (fun _ => some "connection reset") none ["Aman"]
    [RecvResult.msg "Echo:Aman", RecvResult.eof] 0 "connection reset"
    (by simp) (fun j hj => absurd hj (Nat.not_lt_zero j)) rfl

/-- C5: every inbound message the transport yields before end-of-stream is
delivered to the sink (line 84's `log.Println`), in arrival order, with no
reordering, drop, or duplication. -/
theorem receiver_delivers_in_order (msgs : List String) (rest : List RecvResult) :
    sinkOf (receiverLoop (msgs.map RecvResult.msg ++ RecvResult.eof :: rest)) = msgs := by
  rw [receiverLoop_msgs, sinkOf_delivers]
  simp [receiverLoop, sinkOf]

/-- C6, Scenario A: with the reference name list of `main` and a transport
that accepts all sends and echoes three responses then end-of-stream, the
call finishes with the sink holding exactly the three echoes in order, and
the call result reports no sender error and no receiver error. -/
theorem scenarioA_echoes_in_order :
    callHelloBiDirectionalStream (fun _ => none) none ["Aman", "Aryan", "Satvik"]
        [RecvResult.msg "Echo:Aman", RecvResult.msg "Echo:Aryan",
          RecvResult.msg "Echo:Satvik", RecvResult.eof] =
      RunOutcome.finished ["Echo:Aman", "Echo:Aryan", "Echo:Satvik"] ∧
    callResult (callHelloBiDirectionalStream (fun _ => none) none
        ["Aman", "Aryan", "Satvik"]
        [RecvResult.msg "Echo:Aman", RecvResult.msg "Echo:Aryan",
          RecvResult.msg "Echo:Satvik", RecvResult.eof]) =
      some (none, none) := by
  constructor <;> rfl

/-- C7: the wait on `waitc` (line 99) returns exactly when `close(waitc)`
has executed — never before the signal fired, always once it has, including
when it fired before the wait began — and no receiver execution fires the
signal more than once. -/
theorem coordinator_single_fire_no_lost_wakeup (rs : List RecvResult) :
    fireCount (receiverLoop rs) ≤ 1 ∧
    (waitReturns (receiverLoop rs) = true ↔ fireCount (receiverLoop rs) = 1) := by
  have h := fireCount_receiverLoop_le_one rs
  refine ⟨h, ?_⟩
  simp only [waitReturns, decide_eq_true_eq]
  omega

/-- C8, Scenario C: if the peer never terminates its direction (no
end-of-stream, no error) the receiver never fires the signal and the call
blocks forever on `<-waitc`, returning no result; the code supplies no
timeout (`context.Background()`, line 68) that could interrupt it. -/
theorem scenarioC_blocks_forever (sendRes : Nat → Option String)
    (closeRes : Option String) (names : List String) (msgs : List String)
    (hok : ∀ j, j < names.length → sendRes j = none) :
    callHelloBiDirectionalStream sendRes closeRes names (msgs.map RecvResult.msg) =
      RunOutcome.blocked msgs ∧
    waitReturns (receiverLoop (msgs.map RecvResult.msg)) = false ∧
    callResult (callHelloBiDirectionalStream sendRes closeRes names
        (msgs.map RecvResult.msg)) = none := by
  have hs : senderLoop sendRes closeRes names = names.map SEvent.send ++ [SEvent.close] :=
    senderLoopAux_ok sendRes names 0 (fun j hj => by simpa using hok j hj)
  have hsf : sFirstFatal (senderLoop sendRes closeRes names) = none := by
    rw [hs, sFirstFatal_sends]
    rfl
  have hr : receiverLoop (msgs.map RecvResult.msg) = msgs.map REvent.deliver := by
    have := receiverLoop_msgs [] msgs
    simpa [receiverLoop] using this
  have hrf : firstFatal (receiverLoop (msgs.map RecvResult.msg)) = none := by
    rw [hr]
    have := firstFatal_delivers [] msgs
    simpa [firstFatal] using this
  have hfc : fireCount (receiverLoop (msgs.map RecvResult.msg)) = 0 := by
    rw [hr]
    have := fireCount_delivers [] msgs
    simpa [fireCount] using this
  have hsk : sinkOf (receiverLoop (msgs.map RecvResult.msg)) = msgs := by
    rw [hr]
    have := sinkOf_delivers [] msgs
    simpa [sinkOf] using this
  have hw : waitReturns (receiverLoop (msgs.map RecvResult.msg)) = false := by
    simp [waitReturns, hfc]
  refine ⟨?_, hw, ?_⟩
  · simp [callHelloBiDirectionalStream, hsf, hrf, hw, hsk]
  · simp [callHelloBiDirectionalStream, hsf, hrf, hw, callResult]

/-- C8 witness: a peer that sends one echo and never half-closes. -/
theorem scenarioC_blocks_forever_witness :
    callHelloBiDirectionalStream (fun _ => none) none ["Aman"]
        [RecvResult.msg "Echo:Aman"] = RunOutcome.blocked ["Echo:Aman"] ∧
    waitReturns (receiverLoop [RecvResult.msg "Echo:Aman"]) = false ∧
    callResult (callHelloBiDirectionalStream (fun _ => none) none ["Aman"]
        [RecvResult.msg "Echo:Aman"]) = none := by
  have h := scenarioC_blocks_forever (fun _ => none) none ["Aman"] ["Echo:Aman"]
    (fun j _ => rfl)
  simpa using h

/-- C9: on every code path of the sender loop — all sends succeed, a send
fails, whatever the transport answers — `stream.CloseSend()` is executed at
most once. -/
theorem closeSend_at_most_once (sendRes : Nat → Option String)
    (closeRes : Option String) (names : List String) :
    closeCount (senderLoop sendRes closeRes names) ≤ 1 :=
  closeCount_aux_le_one sendRes names 0

/-- C10: line 98 discards the error `stream.CloseSend()` returns, so when
every send succeeds, the sender's trace and the call's entire outcome are
identical whether the half-close failed with a transport error or
succeeded: the error is never observed, reported, or reflected. -/
theorem closeSend_error_never_observed (sendRes : Nat → Option String)
    (names : List String) (recvStream : List RecvResult) (e : String)
    (hok : ∀ j, j < names.length → sendRes j = none) :
    senderLoop sendRes (some e) names = senderLoop sendRes none names ∧
    callHelloBiDirectionalStream sendRes (some e) names recvStream =
      callHelloBiDirectionalStream sendRes none names recvStream :=
  ⟨rfl, rfl⟩

/-- C10 witness at the reference scenario with a failing half-close. -/
theorem closeSend_error_never_observed_witness :
    senderLoop (fun _ => none) (some "connection reset") ["Aman", "Aryan", "Satvik"] =
      senderLoop (fun _ => none) none ["Aman", "Aryan", "Satvik"] ∧
    callHelloBiDirectionalStream (fun _ => none) (some "connection reset")
        ["Aman", "Aryan", "Satvik"] [RecvResult.eof] =
      callHelloBiDirectionalStream (fun _ => none) none
        ["Aman", "Aryan", "Satvik"] [RecvResult.eof] :=
  closeSend_error_never_observed (fun _ => none) ["Aman", "Aryan", "Satvik"]
    [RecvResult.eof] "connection reset" (fun j _ => rfl)

end BiDi
